import Mathlib

/-!
Verification of the QA dashboard core (src/src/App.jsx): the seeded
pseudo-random generator `rnd`, the daily series builder `genSeries`, and the
`aggregate` reduction.

Modelling conventions:
* JS numbers carrying integer values are modelled as `Nat`/`Int`; the two
  floating-point derivations (`passRate`, `mttrDays`, and the `0.75 + k/100`
  pass-fraction inside the builder) are modelled as exact rationals (`Rat`).
* Calendar dates are modelled as integer day numbers: `genSeries` receives a
  `today : Int` parameter and the record for day index `i` carries the day
  number `today - (days - 1 - i)`, abstracting `daysAgo`/`iso` from the source.
* The generator's module-level mutable `seed` is threaded explicitly: every
  function takes the current seed and returns the updated one.
-/

namespace QADash

/-- `TEAMS` from App.jsx: the team filter values. -/
def TEAMS : List String := ["Core", "Mobile", "Web", "Payments"]

/-- `ENVS` from App.jsx: the environment filter values. -/
def ENVS : List String := ["Prod", "Staging", "UAT"]

/-- One update of the generator state, `seed = (seed * 16807) % 2147483647`
from `rnd` in App.jsx. The JS product of a 31-bit state with 16807 is below
2^53, so JS arithmetic is exact here and `Nat` models it faithfully. -/
def rndStep (s : Nat) : Nat := s * 16807 % 2147483647

/-- `rnd(min, max)` from App.jsx, state-passing: advances the seed, then
returns `Math.floor((seed / 2147483647) * (max - min + 1)) + min`. The float
division and floor are modelled exactly as the rational floor
`⌊seed * (max - min + 1) / 2147483647⌋`, i.e. `Int.fdiv`. -/
def rnd (s : Nat) (lo hi : Int) : Nat × Int :=
  let s2 := rndStep s
  (s2, ((s2 : Int) * (hi - lo + 1)).fdiv 2147483647 + lo)

/-- `Math.round(tests * (0.75 + k/100))` from App.jsx line 44, under exact
arithmetic. JS `Math.round x = ⌊x + 1/2⌋` (round half toward +∞), and with
`x = tests * (75 + k) / 100` this is `⌊(tests * (75 + k) + 50) / 100⌋`,
written with the flooring division `Int.fdiv`. -/
def roundPassFrac (tests k : Int) : Int := (tests * (75 + k) + 50).fdiv 100

/-- One element of the series produced by `genSeries` in App.jsx, with the
date as an integer day number. -/
structure DailyRecord where
  date : Int
  opened : Int
  closed : Int
  sev1 : Int
  sev2 : Int
  sev3 : Int
  tests : Int
  passed : Int
deriving DecidableEq

/-- The body of the `range(days).map(i => ...)` closure in `genSeries`
(App.jsx lines 37-45): builds the record for one day from six sequential
generator draws, returning the final seed together with the record. -/
def genDay (team env : String) (date : Int) (s0 : Nat) : Nat × DailyRecord :=
  let p1 := rnd s0 0 (if team = "Payments" then 2 else 1)
  let sev1 := max 0 (p1.2 - (if env = "UAT" then 1 else 0))
  let p2 := rnd p1.1 0 (if team = "Mobile" then 5 else 3)
  let sev2 := p2.2
  let p3 := rnd p2.1 1 8
  let sev3 := p3.2
  let opened := sev1 + sev2 + sev3
  let p4 := rnd p3.1 0 3
  let closed := max 0 (opened - p4.2)
  let p5 := rnd p4.1 0 40
  let tests := 80 + p5.2
  let p6 := rnd p5.1 0 15
  let passed := max 0 (min tests (roundPassFrac tests p6.2))
  (p6.1, ⟨date, opened, closed, sev1, sev2, sev3, tests, passed⟩)

/-- Recursion underlying `genSeries`: with `k` days still to produce, the
next record is for day number `today - k` (when `k + 1` days remain out of
`days`, the current map index is `i = days - (k + 1)`, and
`days - 1 - i = k`). The seed is threaded left to right exactly as the JS
`map` evaluates the closure for `i = 0, 1, ...` in order. -/
def genAux (team env : String) (today : Int) : Nat → Nat → Nat × List DailyRecord
  | 0, s => (s, [])
  | k + 1, s =>
    let p := genDay team env (today - (k : Int)) s
    let q := genAux team env today k p.1
    (q.1, p.2 :: q.2)

/-- `genSeries(days, { team, env })` from App.jsx, with the date origin
`today` and the seed passed explicitly: returns the final seed and the list
of `days` records, oldest first. -/
def genSeries (days : Nat) (team env : String) (today : Int) (s : Nat) :
    Nat × List DailyRecord :=
  genAux team env today days s

/-- The accumulator record of `aggregate`'s `reduce` in App.jsx. The JS field
named `open` is called `«open»` here. -/
structure Totals where
  «open» : Int
  closed : Int
  sev1 : Int
  sev2 : Int
  sev3 : Int
  tests : Int
  passed : Int
deriving DecidableEq

/-- One step of `aggregate`'s `reduce` (App.jsx lines 50-59). -/
def addRecord (acc : Totals) (d : DailyRecord) : Totals :=
  { «open» := acc.«open» + d.opened
    closed := acc.closed + d.closed
    sev1 := acc.sev1 + d.sev1
    sev2 := acc.sev2 + d.sev2
    sev3 := acc.sev3 + d.sev3
    tests := acc.tests + d.tests
    passed := acc.passed + d.passed }

/-- The value `{ totals, passRate, mttrDays }` returned by `aggregate`. -/
structure AggResult where
  totals : Totals
  passRate : Rat
  mttrDays : Rat
deriving DecidableEq

/-- `aggregate(series)` from App.jsx: fold the series into `totals` starting
from the all-zero accumulator, then derive
`passRate = totals.tests ? totals.passed / totals.tests : 0` (for the integer
totals here, JS truthiness of `totals.tests` is `totals.tests ≠ 0`) and
`mttrDays = Math.max(0.3, 1.2 + totals.sev1 * 0.2 + totals.sev2 * 0.05)`. -/
def aggregate (series : List DailyRecord) : AggResult :=
  let totals := series.foldl addRecord ⟨0, 0, 0, 0, 0, 0, 0⟩
  let passRate : Rat :=
    if totals.tests = 0 then 0 else (totals.passed : Rat) / (totals.tests : Rat)
  let mttrDays : Rat :=
    max 0.3 (1.2 + (totals.sev1 : Rat) * 0.2 + (totals.sev2 : Rat) * 0.05)
  ⟨totals, passRate, mttrDays⟩

/-- A generator state reachable from the fixed initial seed 42 (App.jsx
line 31) by repeated generator steps. -/
def Reachable (s : Nat) : Prop := ∃ n : Nat, rndStep^[n] 42 = s

/-! ### Helper lemmas -/

/-- `roundPassFrac` is exactly the rational rounding
`⌊tests * (0.75 + k/100) + 1/2⌋` it stands for. -/
lemma roundPassFrac_eq (tests k : Int) :
    roundPassFrac tests k = ⌊(tests : Rat) * (0.75 + (k : Rat) / 100) + 1 / 2⌋ := by
  have h1 : (tests : Rat) * (0.75 + (k : Rat) / 100) + 1 / 2 =
      ((tests * (75 + k) + 50 : Int) : Rat) / ((100 : Nat) : Rat) := by
    push_cast; ring
  rw [h1, Rat.floor_intCast_div_natCast]
  show (tests * (75 + k) + 50).fdiv 100 = _
  rw [Int.fdiv_eq_ediv _ (by norm_num)]
  norm_num

lemma rndStep_lt (s : Nat) : rndStep s < 2147483647 :=
  Nat.mod_lt _ (by norm_num)

lemma rnd_fst (s : Nat) (lo hi : Int) : (rnd s lo hi).1 = rndStep s := rfl

lemma rnd_snd (s : Nat) (lo hi : Int) :
    (rnd s lo hi).2 = ((rndStep s : Int) * (hi - lo + 1)).fdiv 2147483647 + lo := rfl

/-- After one step the state is below the modulus, so the scaled floor lands
in `[lo, hi]` whenever `lo ≤ hi`. -/
lemma rnd_bounds (s : Nat) (lo hi : Int) (h : lo ≤ hi) :
    lo ≤ (rnd s lo hi).2 ∧ (rnd s lo hi).2 ≤ hi := by
  have hM : (0 : Int) < 2147483647 := by norm_num
  have ha : (0 : Int) ≤ (rndStep s : Int) := Int.ofNat_nonneg _
  have haM : (rndStep s : Int) < 2147483647 := by exact_mod_cast rndStep_lt s
  have hn : (0 : Int) < hi - lo + 1 := by omega
  have key : 0 ≤ ((rndStep s : Int) * (hi - lo + 1)).fdiv 2147483647 ∧
      ((rndStep s : Int) * (hi - lo + 1)).fdiv 2147483647 < hi - lo + 1 := by
    rw [Int.fdiv_eq_ediv _ (le_of_lt hM)]
    refine ⟨Int.ediv_nonneg (mul_nonneg ha (le_of_lt hn)) (le_of_lt hM), ?_⟩
    rw [Int.ediv_lt_iff_lt_mul hM]
    calc (rndStep s : Int) * (hi - lo + 1)
        < 2147483647 * (hi - lo + 1) := by
          exact mul_lt_mul_of_pos_right haM hn
      _ = (hi - lo + 1) * 2147483647 := by ring
  rw [rnd_snd]
  omega

lemma genDay_fst (team env : String) (date : Int) (s : Nat) :
    (genDay team env date s).1 = rndStep^[6] s := rfl

/-- The per-day record invariants, for an arbitrary incoming state. -/
lemma genDay_props (team env : String) (date : Int) (s0 : Nat) :
    ((genDay team env date s0).2).date = date ∧
    ((genDay team env date s0).2).opened =
      ((genDay team env date s0).2).sev1 + ((genDay team env date s0).2).sev2 +
        ((genDay team env date s0).2).sev3 ∧
    0 ≤ ((genDay team env date s0).2).sev1 ∧
    0 ≤ ((genDay team env date s0).2).sev2 ∧
    1 ≤ ((genDay team env date s0).2).sev3 ∧
    0 ≤ ((genDay team env date s0).2).closed ∧
    ((genDay team env date s0).2).closed ≤ ((genDay team env date s0).2).opened ∧
    80 ≤ ((genDay team env date s0).2).tests ∧
    0 ≤ ((genDay team env date s0).2).passed ∧
    ((genDay team env date s0).2).passed ≤ ((genDay team env date s0).2).tests := by
  have q1 := rnd_bounds s0 0 (if team = "Payments" then 2 else 1)
    (by split <;> norm_num)
  have q2 := rnd_bounds (rnd s0 0 (if team = "Payments" then 2 else 1)).1 0
    (if team = "Mobile" then 5 else 3) (by split <;> norm_num)
  have q3 := rnd_bounds
    (rnd (rnd s0 0 (if team = "Payments" then 2 else 1)).1 0
      (if team = "Mobile" then 5 else 3)).1 1 8 (by norm_num)
  have q4 := rnd_bounds
    (rnd (rnd (rnd s0 0 (if team = "Payments" then 2 else 1)).1 0
      (if team = "Mobile" then 5 else 3)).1 1 8).1 0 3 (by norm_num)
  have q5 := rnd_bounds
    (rnd (rnd (rnd (rnd s0 0 (if team = "Payments" then 2 else 1)).1 0
      (if team = "Mobile" then 5 else 3)).1 1 8).1 0 3).1 0 40 (by norm_num)
  refine ⟨?_, ?_, ?_, ?_, ?_, ?_, ?_, ?_, ?_, ?_⟩ <;> simp only [genDay] <;> omega

lemma genSeries_length (days : Nat) (team env : String) (today : Int) (s : Nat) :
    (genSeries days team env today s).2.length = days := by
  show (genAux team env today days s).2.length = days
  induction days generalizing s with
  | zero => rfl
  | succ k ih => simp only [genAux, List.length_cons, ih]

lemma mem_genAux {team env : String} {today : Int} {k s : Nat}
    {r : DailyRecord} (h : r ∈ (genAux team env today k s).2) :
    ∃ d s0, r = (genDay team env d s0).2 := by
  induction k generalizing s with
  | zero => simp [genAux] at h
  | succ k ih =>
    simp only [genAux, List.mem_cons] at h
    rcases h with h | h
    · exact ⟨today - (k : Int), s, h⟩
    · exact ih h

lemma mem_genSeries {days : Nat} {team env : String} {today : Int} {s : Nat}
    {r : DailyRecord} (h : r ∈ (genSeries days team env today s).2) :
    ∃ d s0, r = (genDay team env d s0).2 :=
  mem_genAux h

lemma genAux_fst (team env : String) (today : Int) (k s : Nat) :
    (genAux team env today k s).1 = rndStep^[6 * k] s := by
  induction k generalizing s with
  | zero => rfl
  | succ k ih =>
    calc (genAux team env today (k + 1) s).1
        = (genAux team env today k
            (genDay team env (today - (k : Int)) s).1).1 := rfl
      _ = rndStep^[6 * k] (rndStep^[6] s) := by
          rw [ih, genDay_fst]
      _ = rndStep^[6 * k + 6] s := (Function.iterate_add_apply _ _ _ _).symm
      _ = rndStep^[6 * (k + 1)] s := by rw [Nat.mul_succ]

lemma genAux_getElem (team env : String) (today : Int) (k s i : Nat) (hi : i < k)
    (hlen : i < ((genAux team env today k s).2).length) :
    ((genAux team env today k s).2)[i] =
      (genDay team env (today - ((k : Int) - 1 - (i : Int)))
        (rndStep^[6 * i] s)).2 := by
  induction k generalizing s i with
  | zero => exact absurd hi (Nat.not_lt_zero i)
  | succ k ih =>
    cases i with
    | zero =>
      simp only [genAux, List.getElem_cons_zero, Nat.mul_zero,
        Function.iterate_zero, id_eq]
      have hd : today - (((k + 1 : Nat) : Int) - 1 - ((0 : Nat) : Int)) =
          today - (k : Int) := by push_cast; ring
      rw [hd]
    | succ i =>
      simp only [genAux, List.getElem_cons_succ]
      have hlen' : i < ((genAux team env today k
          (genDay team env (today - (k : Int)) s).1).2).length := by
        have := genSeries_length k team env today
          (genDay team env (today - (k : Int)) s).1
        simp only [genSeries] at this
        omega
      rw [ih (genDay team env (today - (k : Int)) s).1 i (by omega) hlen']
      have hstate : rndStep^[6 * i] (genDay team env (today - (k : Int)) s).1 =
          rndStep^[6 * (i + 1)] s := by
        rw [genDay_fst, ← Function.iterate_add_apply,
          show 6 * i + 6 = 6 * (i + 1) from by ring]
      have hdate : today - ((k : Int) - 1 - (i : Int)) =
          today - (((k + 1 : Nat) : Int) - 1 - (((i + 1 : Nat)) : Int)) := by
        push_cast; ring
      rw [hstate, hdate]

lemma foldl_addRecord (l : List DailyRecord) (acc : Totals) :
    l.foldl addRecord acc =
      ⟨acc.«open» + (l.map DailyRecord.opened).sum,
       acc.closed + (l.map DailyRecord.closed).sum,
       acc.sev1 + (l.map DailyRecord.sev1).sum,
       acc.sev2 + (l.map DailyRecord.sev2).sum,
       acc.sev3 + (l.map DailyRecord.sev3).sum,
       acc.tests + (l.map DailyRecord.tests).sum,
       acc.passed + (l.map DailyRecord.passed).sum⟩ := by
  induction l generalizing acc with
  | nil => simp
  | cons d l ih =>
    simp only [List.foldl_cons, List.map_cons, List.sum_cons, ih, addRecord]
    congr 1 <;> ring

lemma aggregate_totals_def (series : List DailyRecord) :
    (aggregate series).totals = series.foldl addRecord ⟨0, 0, 0, 0, 0, 0, 0⟩ := rfl

lemma aggregate_passRate_def (series : List DailyRecord) :
    (aggregate series).passRate =
      if (aggregate series).totals.tests = 0 then 0
      else ((aggregate series).totals.passed : Rat) /
        ((aggregate series).totals.tests : Rat) := rfl

lemma aggregate_mttrDays_def (series : List DailyRecord) :
    (aggregate series).mttrDays =
      max 0.3 (1.2 + ((aggregate series).totals.sev1 : Rat) * 0.2 +
        ((aggregate series).totals.sev2 : Rat) * 0.05) := rfl

lemma genSeries_getElem (days : Nat) (team env : String) (today : Int)
    (s i : Nat) (hi : i < days)
    (hlen : i < (genSeries days team env today s).2.length) :
    (genSeries days team env today s).2[i] =
      (genDay team env (today - ((days : Int) - 1 - (i : Int)))
        (rndStep^[6 * i] s)).2 :=
  genAux_getElem team env today days s i hi hlen

/-! ### Claim theorems -/

/-- C1: every record produced by `genSeries`, for any number of days, any
team in `TEAMS`, any environment in `ENVS` and any initial generator state,
satisfies `opened = sev1 + sev2 + sev3` exactly. -/
theorem genSeries_opened_eq_sevsum (days : Nat) (team env : String)
    (today : Int) (s : Nat) (ht : team ∈ TEAMS) (he : env ∈ ENVS) :
    ∀ r ∈ (genSeries days team env today s).2,
      r.opened = r.sev1 + r.sev2 + r.sev3 := by
  intro r hr
  obtain ⟨d, s0, rfl⟩ := mem_genSeries hr
  exact (genDay_props team env d s0).2.1

/-- Witness for C1 at `days = 1`, team `Core`, env `Prod`, seed 42. -/
theorem genSeries_opened_eq_sevsum_witness :
    ((genSeries 1 ("Core") ("Prod") 0 42).2.getD 0 ⟨0, 0, 0, 0, 0, 0, 0, 0⟩).opened =
      ((genSeries 1 ("Core") ("Prod") 0 42).2.getD 0 ⟨0, 0, 0, 0, 0, 0, 0, 0⟩).sev1 +
      ((genSeries 1 ("Core") ("Prod") 0 42).2.getD 0 ⟨0, 0, 0, 0, 0, 0, 0, 0⟩).sev2 +
      ((genSeries 1 ("Core") ("Prod") 0 42).2.getD 0 ⟨0, 0, 0, 0, 0, 0, 0, 0⟩).sev3 :=
  genSeries_opened_eq_sevsum 1 ("Core") ("Prod") 0 42 (by decide) (by decide)
    _ (by decide)

/-- C2: every record produced by `genSeries` satisfies
`0 ≤ passed ≤ tests`, `tests` positive, `closed ≥ 0` and
`sev1, sev2, sev3 ≥ 0`. -/
theorem genSeries_field_ranges (days : Nat) (team env : String)
    (today : Int) (s : Nat) (ht : team ∈ TEAMS) (he : env ∈ ENVS) :
    ∀ r ∈ (genSeries days team env today s).2,
      0 ≤ r.passed ∧ r.passed ≤ r.tests ∧ 0 < r.tests ∧
      0 ≤ r.closed ∧ 0 ≤ r.sev1 ∧ 0 ≤ r.sev2 ∧ 0 ≤ r.sev3 := by
  intro r hr
  obtain ⟨d, s0, rfl⟩ := mem_genSeries hr
  obtain ⟨-, -, h1, h2, h3, h4, -, h5, h6, h7⟩ := genDay_props team env d s0
  exact ⟨h6, h7, by omega, h4, h1, h2, by omega⟩

/-- Witness for C2 at `days = 1`, team `Core`, env `Prod`, seed 42. -/
theorem genSeries_field_ranges_witness :
    0 ≤ ((genSeries 1 ("Core") ("Prod") 0 42).2.getD 0 ⟨0, 0, 0, 0, 0, 0, 0, 0⟩).passed ∧
    ((genSeries 1 ("Core") ("Prod") 0 42).2.getD 0 ⟨0, 0, 0, 0, 0, 0, 0, 0⟩).passed ≤
      ((genSeries 1 ("Core") ("Prod") 0 42).2.getD 0 ⟨0, 0, 0, 0, 0, 0, 0, 0⟩).tests ∧
    0 < ((genSeries 1 ("Core") ("Prod") 0 42).2.getD 0 ⟨0, 0, 0, 0, 0, 0, 0, 0⟩).tests ∧
    0 ≤ ((genSeries 1 ("Core") ("Prod") 0 42).2.getD 0 ⟨0, 0, 0, 0, 0, 0, 0, 0⟩).closed ∧
    0 ≤ ((genSeries 1 ("Core") ("Prod") 0 42).2.getD 0 ⟨0, 0, 0, 0, 0, 0, 0, 0⟩).sev1 ∧
    0 ≤ ((genSeries 1 ("Core") ("Prod") 0 42).2.getD 0 ⟨0, 0, 0, 0, 0, 0, 0, 0⟩).sev2 ∧
    0 ≤ ((genSeries 1 ("Core") ("Prod") 0 42).2.getD 0 ⟨0, 0, 0, 0, 0, 0, 0, 0⟩).sev3 :=
  genSeries_field_ranges 1 ("Core") ("Prod") 0 42 (by decide) (by decide)
    _ (by decide)

/-- C3: for `min ≤ max` and any generator state reachable from the initial
seed 42, one `rnd` call updates the state to `(s * 16807) mod 2147483647`
and returns `⌊(new state / 2147483647) * (max - min + 1)⌋ + min`, an integer
in `[min, max]`. -/
theorem rnd_contract (lo hi : Int) (s : Nat) (hs : Reachable s)
    (hle : lo ≤ hi) :
    (rnd s lo hi).1 = s * 16807 % 2147483647 ∧
    (rnd s lo hi).2 =
      (((s * 16807 % 2147483647 : Nat) : Int) * (hi - lo + 1)).fdiv 2147483647 +
        lo ∧
    lo ≤ (rnd s lo hi).2 ∧ (rnd s lo hi).2 ≤ hi :=
  ⟨rfl, rfl, (rnd_bounds s lo hi hle).1, (rnd_bounds s lo hi hle).2⟩

/-- Witness for C3 at the initial state 42 with bounds `[0, 3]`. -/
theorem rnd_contract_witness :
    (rnd 42 0 3).1 = 42 * 16807 % 2147483647 ∧
    (rnd 42 0 3).2 =
      (((42 * 16807 % 2147483647 : Nat) : Int) * (3 - 0 + 1)).fdiv 2147483647 +
        0 ∧
    0 ≤ (rnd 42 0 3).2 ∧ (rnd 42 0 3).2 ≤ 3 :=
  rnd_contract 0 3 42 ⟨0, rfl⟩ (by norm_num)

/-- C4: `genSeries` returns exactly `days` records and the record at index
`i` has date `today - (days - 1 - i)`, so the dates are consecutive calendar
days, oldest to newest, ending at `today`. -/
theorem genSeries_length_and_dates (days : Nat) (team env : String)
    (today : Int) (s : Nat) (ht : team ∈ TEAMS) (he : env ∈ ENVS) :
    (genSeries days team env today s).2.length = days ∧
    ∀ (i : Nat) (h : i < (genSeries days team env today s).2.length),
      ((genSeries days team env today s).2[i]).date =
        today - ((days : Int) - 1 - (i : Int)) := by
  refine ⟨genSeries_length days team env today s, fun i h => ?_⟩
  have hi : i < days := by
    rw [← genSeries_length days team env today s]; exact h
  rw [genSeries_getElem days team env today s i hi h]
  exact (genDay_props team env _ _).1

/-- Witness for C4 at `days = 2`, team `Web`, env `Staging`, today 5. -/
theorem genSeries_length_and_dates_witness :
    (genSeries 2 ("Web") ("Staging") 5 42).2.length = 2 ∧
    ((genSeries 2 ("Web") ("Staging") 5 42).2.get ⟨0, by decide⟩).date =
      5 - ((2 : Int) - 1 - ((0 : Nat) : Int)) :=
  ⟨(genSeries_length_and_dates 2 ("Web") ("Staging") 5 42 (by decide)
      (by decide)).1,
   (genSeries_length_and_dates 2 ("Web") ("Staging") 5 42 (by decide)
      (by decide)).2 0 (by decide)⟩

/-- C5: `genSeries` leaves the generator state advanced by exactly
`6 * days` steps; for `days = 0` it returns the empty list with the state
unchanged; and the record at index `i` is produced by `genDay` — the fixed
six-draw sequence (sev1, sev2, sev3, closed delta, tests, passed) — from the
state advanced by `6 * i` steps. -/
theorem genSeries_six_calls_per_day (days : Nat) (team env : String)
    (today : Int) (s : Nat) (ht : team ∈ TEAMS) (he : env ∈ ENVS) :
    (genSeries days team env today s).1 = rndStep^[6 * days] s ∧
    genSeries 0 team env today s = (s, []) ∧
    ∀ (i : Nat) (h : i < (genSeries days team env today s).2.length),
      (genSeries days team env today s).2[i] =
        (genDay team env (today - ((days : Int) - 1 - (i : Int)))
          (rndStep^[6 * i] s)).2 := by
  refine ⟨genAux_fst team env today days s, rfl, fun i h => ?_⟩
  exact genSeries_getElem days team env today s i
    (by rw [← genSeries_length days team env today s]; exact h) h

/-- Witness for C5 at `days = 1`, team `Mobile`, env `UAT`, seed 42. -/
theorem genSeries_six_calls_per_day_witness :
    (genSeries 1 ("Mobile") ("UAT") 0 42).1 = rndStep^[6 * 1] 42 ∧
    genSeries 0 ("Mobile") ("UAT") 0 42 = (42, []) ∧
    (genSeries 1 ("Mobile") ("UAT") 0 42).2.get ⟨0, by decide⟩ =
      (genDay ("Mobile") ("UAT") (0 - ((1 : Int) - 1 - ((0 : Nat) : Int)))
        (rndStep^[6 * 0] 42)).2 :=
  ⟨(genSeries_six_calls_per_day 1 ("Mobile") ("UAT") 0 42 (by decide)
      (by decide)).1,
   (genSeries_six_calls_per_day 0 ("Mobile") ("UAT") 0 42 (by decide)
      (by decide)).2.1,
   (genSeries_six_calls_per_day 1 ("Mobile") ("UAT") 0 42 (by decide)
      (by decide)).2.2 0 (by decide)⟩

/-- C6: for every series, each numeric field of `aggregate`'s totals equals
the field-wise sum over the series, with zero as the identity for the empty
series. -/
theorem aggregate_totals_eq_sums (series : List DailyRecord) :
    (aggregate series).totals.«open» = (series.map DailyRecord.opened).sum ∧
    (aggregate series).totals.closed = (series.map DailyRecord.closed).sum ∧
    (aggregate series).totals.sev1 = (series.map DailyRecord.sev1).sum ∧
    (aggregate series).totals.sev2 = (series.map DailyRecord.sev2).sum ∧
    (aggregate series).totals.sev3 = (series.map DailyRecord.sev3).sum ∧
    (aggregate series).totals.tests = (series.map DailyRecord.tests).sum ∧
    (aggregate series).totals.passed = (series.map DailyRecord.passed).sum := by
  rw [aggregate_totals_def, foldl_addRecord]
  norm_num

/-- C7: `aggregate` on the empty series returns all-zero totals,
`passRate = 0` and `mttrDays = 1.2`. -/
theorem aggregate_nil_eq :
    aggregate [] = ⟨⟨0, 0, 0, 0, 0, 0, 0⟩, 0, 1.2⟩ := by
  simp only [aggregate, List.foldl_nil]
  norm_num [AggResult.mk.injEq, max_def]

/-- C8: if every record of the series satisfies `0 ≤ passed ≤ tests`, then
`passRate ∈ [0, 1]`, `passRate = 0` when the tests total is zero, and
`mttrDays ≥ 0.3`. -/
theorem aggregate_rate_mttr_bounds (series : List DailyRecord)
    (h : ∀ r ∈ series, 0 ≤ r.passed ∧ r.passed ≤ r.tests) :
    0 ≤ (aggregate series).passRate ∧ (aggregate series).passRate ≤ 1 ∧
    ((aggregate series).totals.tests = 0 → (aggregate series).passRate = 0) ∧
    (0.3 : Rat) ≤ (aggregate series).mttrDays := by
  have hpass : (aggregate series).totals.passed =
        (series.map DailyRecord.passed).sum ∧
      (aggregate series).totals.tests =
        (series.map DailyRecord.tests).sum := by
    rw [aggregate_totals_def, foldl_addRecord]; norm_num
  have hp0 : 0 ≤ (aggregate series).totals.passed := by
    rw [hpass.1]
    refine List.sum_nonneg ?_
    intro x hx
    obtain ⟨r, hr, rfl⟩ := List.mem_map.mp hx
    exact (h r hr).1
  have hpt : (aggregate series).totals.passed ≤
      (aggregate series).totals.tests := by
    rw [hpass.1, hpass.2]
    exact List.sum_le_sum fun r hr => (h r hr).2
  refine ⟨?_, ?_, ?_, ?_⟩
  · rw [aggregate_passRate_def]
    split
    · norm_num
    · exact div_nonneg (by exact_mod_cast hp0)
        (by exact_mod_cast hp0.trans hpt)
  · rw [aggregate_passRate_def]
    split
    · norm_num
    · rename_i hne
      have hpos : (0 : Int) < (aggregate series).totals.tests :=
        lt_of_le_of_ne (hp0.trans hpt) (Ne.symm hne)
      rw [div_le_one (by exact_mod_cast hpos)]
      exact_mod_cast hpt
  · intro h0
    rw [aggregate_passRate_def, if_pos h0]
  · rw [aggregate_mttrDays_def]
    exact le_max_left _ _

/-- Witness for C8 on a one-record series with `passed = 80 ≤ tests = 100`. -/
theorem aggregate_rate_mttr_bounds_witness :
    0 ≤ (aggregate [⟨0, 5, 2, 1, 2, 2, 100, 80⟩]).passRate ∧
    (aggregate [⟨0, 5, 2, 1, 2, 2, 100, 80⟩]).passRate ≤ 1 ∧
    ((aggregate [⟨0, 5, 2, 1, 2, 2, 100, 80⟩]).totals.tests = 0 →
      (aggregate [⟨0, 5, 2, 1, 2, 2, 100, 80⟩]).passRate = 0) ∧
    (0.3 : Rat) ≤ (aggregate [⟨0, 5, 2, 1, 2, 2, 100, 80⟩]).mttrDays :=
  aggregate_rate_mttr_bounds [⟨0, 5, 2, 1, 2, 2, 100, 80⟩] (by decide)

/-- C9: `aggregate` on the specific two-record series of the spec scenario
yields totals `{open: 8, closed: 5, sev1: 1, sev2: 3, sev3: 4, tests: 190,
passed: 161}`, `passRate = 161/190` and `mttrDays = 1.55`. -/
theorem aggregate_two_record_scenario :
    aggregate [⟨0, 5, 2, 1, 2, 2, 100, 80⟩, ⟨1, 3, 3, 0, 1, 2, 90, 81⟩] =
      ⟨⟨8, 5, 1, 3, 4, 190, 161⟩, 161 / 190, 1.55⟩ := by
  simp only [aggregate, addRecord, List.foldl_cons, List.foldl_nil]
  norm_num [AggResult.mk.injEq, Totals.mk.injEq, max_def]

/-- C10: every record produced by `genSeries` satisfies `closed ≤ opened`,
since the subtracted draw is non-negative and `closed` clamps at zero below
a non-negative `opened`. -/
theorem genSeries_closed_le_opened (days : Nat) (team env : String)
    (today : Int) (s : Nat) (ht : team ∈ TEAMS) (he : env ∈ ENVS) :
    ∀ r ∈ (genSeries days team env today s).2, r.closed ≤ r.opened := by
  intro r hr
  obtain ⟨d, s0, rfl⟩ := mem_genSeries hr
  obtain ⟨-, -, -, -, -, -, hco, -, -, -⟩ := genDay_props team env d s0
  exact hco

/-- Witness for C10 at `days = 1`, team `Payments`, env `Prod`, seed 42. -/
theorem genSeries_closed_le_opened_witness :
    ((genSeries 1 ("Payments") ("Prod") 0 42).2.getD 0 ⟨0, 0, 0, 0, 0, 0, 0, 0⟩).closed ≤
      ((genSeries 1 ("Payments") ("Prod") 0 42).2.getD 0 ⟨0, 0, 0, 0, 0, 0, 0, 0⟩).opened :=
  genSeries_closed_le_opened 1 ("Payments") ("Prod") 0 42 (by decide)
    (by decide) _ (by decide)

end QADash
